import Mathlib

/-!
# Stockflow: inventory and sales ledger — shallow embedding

This file embeds the transactional stock-allocation and audit-trail engine of
the Stockflow repository (NestJS + Prisma) and proves properties of it.

Embedded components (each definition cites its source):
* `InventoryLogService.createManual` and `InventoryLogService.revert`
  (src/unnamed/part_005, the inventory-log service);
* `StockItemService.update` (src/src/modules/stock-item/stock-item.controller.ts,
  second document: the stock-item service);
* `SaleService.create` (src/src/modules/sale/sale.service.ts, the version that
  persists nested sale items);
* the documented sale pipeline `validateSaleItems`, `allocateStock`
  (FIFO allocation) and `processInventoryMovements` from src/docs/services.md.

Ids are `Nat`; quantities and money are `Int` (all arithmetic in the source is
on integers, except unit prices which the allocator merely copies); dates and
timestamps are `Nat` (epoch-like ordinals).  Prisma tables become lists of
records inside a `DB` state; a Prisma `$transaction` that throws is an
`Except` that returns `.error` without returning a new state.
-/

namespace StockFlow

/-- Prisma enum `InventoryLogType`
(src/src/modules/inventory-log/dto/create-inventory-log.dto.ts). -/
inductive LogType where
  | ENTRY | SALE | RETURN | ADJUSTMENT | LOSS
deriving DecidableEq, Repr, Inhabited

/-- Prisma enum `SaleStatus` (create-sale.dto.ts, prisma/seed.ts). -/
inductive SaleStatus where
  | OPEN | COMPLETED | CANCELED
deriving DecidableEq, Repr

/-- Prisma enum `PaymentStatus` (create-sale.dto.ts). -/
inductive PayStatus where
  | PENDING | PAID | CANCELED
deriving DecidableEq, Repr

/-- Row of the `product` table: the tenant chain is
`productVariant → product → company` (docs/entities.md, queries in services). -/
structure Product where
  id : Nat
  companyId : Nat
deriving DecidableEq, Repr

/-- Row of the `productVariant` table. -/
structure ProductVariant where
  id : Nat
  productId : Nat
deriving DecidableEq, Repr

/-- Row of the `stockItem` table (a stock lot): CreateStockItemDto fields plus
id and the `createdAt` timestamp Prisma maintains. -/
structure StockItem where
  id : Nat
  productVariantId : Nat
  quantity : Int
  unitPrice : Int
  entryDate : Nat
  expirationDate : Option Nat
  isActive : Bool
  createdAt : Nat
deriving DecidableEq, Repr, Inhabited

/-- Row of the `inventoryLog` table
(src/src/modules/inventory-log/entities/inventory-log.entity.ts). -/
structure InventoryLog where
  id : Nat
  stockItemId : Nat
  type : LogType
  quantityChange : Int
  previousQty : Int
  newQty : Int
  isManual : Bool
  isReverted : Bool
  sourceId : Option Nat
  sourceType : Option String
  userId : Option Nat
  revertedById : Option Nat
  note : Option String
  companyId : Nat
  createdAt : Nat
deriving DecidableEq, Repr, Inhabited

/-- Row of the `saleItem` table (sale-item DTO fields). -/
structure SaleItem where
  id : Nat
  saleId : Nat
  productVariantId : Nat
  stockItemId : Option Nat
  quantity : Int
  unitPrice : Int
  discount : Int
  total : Int
deriving DecidableEq, Repr

/-- Row of the `sale` table (create-sale.dto.ts fields plus server-set ones). -/
structure Sale where
  id : Nat
  companyId : Nat
  clientId : Option Nat
  userId : Option Nat
  saleDate : Nat
  status : SaleStatus
  paymentStatus : PayStatus
  paymentMethod : Option String
  total : Int
  discount : Int
  note : Option String
deriving DecidableEq, Repr

/-- The database state: one list per Prisma table touched by the embedded
services, plus an id supply and a clock for server-filled columns. -/
structure DB where
  products : List Product
  variants : List ProductVariant
  stockItems : List StockItem
  logs : List InventoryLog
  sales : List Sale
  saleItems : List SaleItem
  nextId : Nat
  now : Nat
deriving DecidableEq, Repr, Inhabited

/-- Errors thrown by the embedded services.  `badRequestMissingVariants`
carries the list of ids that `validateSaleItems` (docs/services.md) joins into
its BadRequest message; `outOfStock` / `insufficientStock` are the two
BadRequest messages of `allocateStock`. -/
inductive ApiError where
  | notFound (msg : String)
  | badRequest (msg : String)
  | badRequestMissingVariants (missing : List Nat)
  | outOfStock (variantId : Nat)
  | insufficientStock (variantId : Nat) (missingUnits : Int)
deriving DecidableEq, Repr

/-- The Prisma filter `productVariant: { product: { companyId } }` used by
every tenant-scoped stock-item query. -/
def variantOwnedBy (db : DB) (variantId companyId : Nat) : Bool :=
  db.variants.any fun v =>
    v.id == variantId && db.products.any fun p =>
      p.id == v.productId && p.companyId == companyId

/-- `prisma.stockItem.findFirst({ where: { id, productVariant: { product:
{ companyId } } } })` — the lookup used by `createManual`, `revert` and the
stock-item service. -/
def stockItemFindFirst (db : DB) (stockItemId companyId : Nat) : Option StockItem :=
  db.stockItems.find? fun s =>
    s.id == stockItemId && variantOwnedBy db s.productVariantId companyId

/-- `prisma.inventoryLog.findFirst({ where: { id, companyId } })`. -/
def logFindFirst (db : DB) (logId companyId : Nat) : Option InventoryLog :=
  db.logs.find? fun l => l.id == logId && l.companyId == companyId

/-- `tx.stockItem.update({ where: { id }, data: { quantity } })`. -/
def updateStockItemQty (items : List StockItem) (id : Nat) (q : Int) : List StockItem :=
  items.map fun s => if s.id == id then { s with quantity := q } else s

/-- `CreateInventoryLogDto` (create-inventory-log.dto.ts). -/
structure CreateInventoryLogDto where
  stockItemId : Nat
  type : LogType
  quantityChange : Int
  sourceId : Option Nat := none
  sourceType : Option String := none
  isManual : Option Bool := none
  note : Option String := none
deriving DecidableEq, Repr

/-- `InventoryLogService.createManual` (src/unnamed/part_005): resolve the
tenant-owned stock item, compute `newQty = previousQty + quantityChange`,
reject a negative result, otherwise in one transaction set the lot quantity
and insert the log entry. -/
def createManual (db : DB) (dto : CreateInventoryLogDto) (companyId : Nat)
    (userId : Option Nat) : Except ApiError (DB × InventoryLog) :=
  match stockItemFindFirst db dto.stockItemId companyId with
  | none => .error (.notFound "Stock item not found for this company")
  | some stockItem =>
    let previousQty := stockItem.quantity
    let newQty := previousQty + dto.quantityChange
    if newQty < 0 then
      .error (.badRequest "Resulting quantity cannot be negative")
    else
      let created : InventoryLog :=
        { id := db.nextId
          stockItemId := stockItem.id
          type := dto.type
          quantityChange := dto.quantityChange
          previousQty := previousQty
          newQty := newQty
          isManual := dto.isManual.getD true
          isReverted := false
          sourceId := dto.sourceId
          sourceType := dto.sourceType
          userId := userId
          revertedById := none
          note := dto.note
          companyId := companyId
          createdAt := db.now }
      .ok ({ db with
              stockItems := updateStockItemQty db.stockItems stockItem.id newQty
              logs := db.logs ++ [created]
              nextId := db.nextId + 1
              now := db.now + 1 }, created)

/-- `InventoryLogService.revert` (src/unnamed/part_005): fetch the
tenant-scoped entry, reject if already reverted, resolve the lot, compute
`newQty = lot.quantity - log.quantityChange`, reject a negative result,
otherwise in one transaction set the lot quantity and flip
`isReverted`/`revertedById` on the entry (Prisma leaves `revertedById`
untouched when the argument is undefined). -/
def revert (db : DB) (logId companyId : Nat) (revertedById : Option Nat) :
    Except ApiError (DB × InventoryLog) :=
  match logFindFirst db logId companyId with
  | none => .error (.notFound "Inventory log not found")
  | some log =>
    if log.isReverted then .error (.badRequest "Log already reverted")
    else
      match stockItemFindFirst db log.stockItemId companyId with
      | none => .error (.notFound "Stock item not found for this company")
      | some stockItem =>
        let newQty := stockItem.quantity - log.quantityChange
        if newQty < 0 then
          .error (.badRequest "Reversion would result in negative quantity")
        else
          let reverted : InventoryLog :=
            { log with
                isReverted := true
                revertedById := if revertedById.isSome then revertedById
                  else log.revertedById }
          .ok ({ db with
                  stockItems := updateStockItemQty db.stockItems stockItem.id newQty
                  logs := db.logs.map fun l => if l.id == log.id then reverted else l
                  now := db.now + 1 }, reverted)

/-- `SaleItemBaseDto` / `CreateSaleItemDtoWithoutSaleId`: one requested sale
line (sale-item DTOs; `saleId` is filled in by the nested create). -/
structure SaleItemInput where
  productVariantId : Nat
  stockItemId : Option Nat := none
  quantity : Int
  unitPrice : Int
  discount : Int := 0
  total : Int
  note : Option String := none
deriving DecidableEq, Repr

/-- `CreateSaleDto` (create-sale.dto.ts, the version carrying `items`). -/
structure CreateSaleDto where
  clientId : Option Nat := none
  saleDate : Option Nat := none
  status : SaleStatus := .OPEN
  paymentStatus : PayStatus := .PENDING
  paymentMethod : Option String := none
  total : Int
  discount : Int := 0
  note : Option String := none
  items : List SaleItemInput := []
deriving DecidableEq, Repr

/-- `SaleService.create` (src/src/modules/sale/sale.service.ts): builds a
`Prisma.SaleUncheckedCreateInput` from the DTO — defaulting `saleDate` to now —
and persists the sale together with its nested `items` in a single
`sale.create`.  It performs no variant validation, no stock allocation, no
stock-item update and no inventory-log write; it cannot fail at the service
level, so it is a total function on the state. -/
def saleServiceCreate (db : DB) (dto : CreateSaleDto) (companyId userId : Nat) :
    DB × Sale :=
  let saleId := db.nextId
  let sale : Sale :=
    { id := saleId
      companyId := companyId
      clientId := dto.clientId
      userId := some userId
      saleDate := dto.saleDate.getD db.now
      status := dto.status
      paymentStatus := dto.paymentStatus
      paymentMethod := dto.paymentMethod
      total := dto.total
      discount := dto.discount
      note := dto.note }
  let newItems : List SaleItem :=
    (List.range dto.items.length).zip dto.items |>.map fun (k, it) =>
      { id := saleId + 1 + k
        saleId := saleId
        productVariantId := it.productVariantId
        stockItemId := it.stockItemId
        quantity := it.quantity
        unitPrice := it.unitPrice
        discount := it.discount
        total := it.total }
  ({ db with
      sales := db.sales ++ [sale]
      saleItems := db.saleItems ++ newItems
      nextId := saleId + 1 + dto.items.length
      now := db.now + 1 }, sale)

/-- `UpdateStockItemDto`.  Modelled from the spec: the DTO class itself is not
among the source files; per the repository's DTO guide (src/unnamed/part_000,
"Update DTO Template") it is `PartialType(CreateStockItemDto)` — every
`CreateStockItemDto` field made optional, an absent field leaving the column
unchanged. -/
structure UpdateStockItemDto where
  productVariantId : Option Nat := none
  quantity : Option Int := none
  unitPrice : Option Int := none
  entryDate : Option Nat := none
  expirationDate : Option Nat := none
  isActive : Option Bool := none
deriving DecidableEq, Repr

/-- Prisma `stockItem.update({ where: { id }, data: dto })` applied to one
row: present DTO fields overwrite, absent ones are left alone. -/
def applyStockItemUpdate (dto : UpdateStockItemDto) (s : StockItem) : StockItem :=
  { s with
      productVariantId := dto.productVariantId.getD s.productVariantId
      quantity := dto.quantity.getD s.quantity
      unitPrice := dto.unitPrice.getD s.unitPrice
      entryDate := dto.entryDate.getD s.entryDate
      expirationDate := match dto.expirationDate with
        | some d => some d
        | none => s.expirationDate
      isActive := dto.isActive.getD s.isActive }

/-- `StockItemService.update` (src/src/modules/stock-item/stock-item.controller.ts,
service document): `findOne` the tenant-owned item, check a replacement
variant if one is supplied, then `stockItem.update` with the DTO as data.
No inventory-log entry is written. -/
def stockItemUpdate (db : DB) (id : Nat) (dto : UpdateStockItemDto)
    (companyId : Nat) : Except ApiError (DB × StockItem) :=
  match stockItemFindFirst db id companyId with
  | none => .error (.notFound "Stock item not found")
  | some found =>
    let variantOk := match dto.productVariantId with
      | some vid => variantOwnedBy db vid companyId
      | none => true
    if !variantOk then .error (.notFound "Product variant not found")
    else
      let items := db.stockItems.map fun s =>
        if s.id == id then applyStockItemUpdate dto s else s
      .ok ({ db with stockItems := items, now := db.now + 1 },
           applyStockItemUpdate dto found)

/-! ## The documented sale pipeline (src/docs/services.md)

`docs/services.md` is the repository's own documentation of `createSale`; it
carries the code of `validateSaleItems`, `allocateStock` (FIFO allocation) and
`processInventoryMovements`, none of which appear in `sale.service.ts`. -/

/-- `validateSaleItems` (docs/services.md): collect every requested
`productVariantId` that does not exist or does not belong to the company, and
fail with one BadRequest listing all of them. -/
def validateSaleItems (db : DB) (items : List SaleItemInput) (companyId : Nat) :
    Except ApiError Unit :=
  let missingIds :=
    (items.map SaleItemInput.productVariantId).filter fun id =>
      !(variantOwnedBy db id companyId)
  if missingIds.isEmpty then .ok ()
  else .error (.badRequestMissingVariants missingIds)

/-- One allocation line of `allocateStock` (docs/services.md). -/
structure AllocationLine where
  stockItemId : Nat
  qtyAllocated : Int
  qtyPrevious : Int
  unitCost : Int
deriving DecidableEq, Repr

/-- Per-variant result of `allocateStock` (docs/services.md). -/
structure AllocationResult where
  productVariantId : Nat
  lines : List AllocationLine
deriving DecidableEq, Repr

/-- Sort rank of an expiration date under the query
`orderBy: [{ expirationDate: 'asc' }, ...]`: PostgreSQL ascending order puts
NULLs last. -/
def expRank : Option Nat → Nat
  | some _ => 0
  | none => 1

/-- Numeric value used to compare two present expiration dates. -/
def expVal : Option Nat → Nat
  | some d => d
  | none => 0

/-- The order of `allocateStock`'s lot query (docs/services.md):
`orderBy: [{ expirationDate: 'asc' }, { createdAt: 'asc' }]` — expiration
ascending with missing expirations last, ties broken by creation timestamp. -/
def fifoLe (a b : StockItem) : Prop :=
  expRank a.expirationDate < expRank b.expirationDate
  ∨ (expRank a.expirationDate = expRank b.expirationDate
     ∧ (expVal a.expirationDate < expVal b.expirationDate
        ∨ (expVal a.expirationDate = expVal b.expirationDate
           ∧ a.createdAt ≤ b.createdAt)))

instance : DecidableRel fifoLe := fun a b => by
  unfold fifoLe; infer_instance

instance : IsTotal StockItem fifoLe := by
  constructor; intro a b; unfold fifoLe; omega

instance : IsTrans StockItem fifoLe := by
  constructor; intro a b c hab hbc; unfold fifoLe at hab hbc ⊢; omega

/-- The lot query of `allocateStock` (docs/services.md):
`stockItem.findMany({ where: { productVariantId, quantity: { gt: 0 } },
orderBy: [{ expirationDate: 'asc' }, { createdAt: 'asc' }] })`. -/
def availableLots (db : DB) (variantId : Nat) : List StockItem :=
  List.insertionSort fifoLe
    (db.stockItems.filter fun s => s.productVariantId == variantId && s.quantity > 0)

/-- The greedy loop of `allocateStock` (docs/services.md): walk the ordered
lots, taking `min(remaining, lot.quantity)` from each until `remaining ≤ 0`;
returns the allocation lines and the final `remaining`. -/
def greedyLoop (remaining : Int) : List StockItem → List AllocationLine × Int
  | [] => ([], remaining)
  | lot :: rest =>
    if remaining ≤ 0 then ([], remaining)
    else
      let allocateQty := min remaining lot.quantity
      let next := greedyLoop (remaining - allocateQty) rest
      ({ stockItemId := lot.id
         qtyAllocated := allocateQty
         qtyPrevious := lot.quantity
         unitCost := lot.unitPrice } :: next.1, next.2)

/-- Per-variant body of `allocateStock` (docs/services.md): no lots at all is
`BadRequest("No stock available …")`; leftover demand after the greedy loop is
`BadRequest("Insufficient stock … Missing n units")`. -/
def allocateVariant (db : DB) (variantId : Nat) (quantity : Int) :
    Except ApiError (List AllocationLine) :=
  let stockLots := availableLots db variantId
  if stockLots.isEmpty then .error (.outOfStock variantId)
  else
    let res := greedyLoop quantity stockLots
    if res.2 > 0 then .error (.insufficientStock variantId res.2)
    else .ok res.1

/-- `allocateStock` (docs/services.md): allocate each requested item in order
against the same transaction snapshot, stopping at the first failure. -/
def allocateStock (db : DB) (items : List SaleItemInput) :
    Except ApiError (List AllocationResult) :=
  items.mapM fun it =>
    (allocateVariant db it.productVariantId it.quantity).map fun lines =>
      { productVariantId := it.productVariantId, lines := lines }

/-- The SALE audit entry `processInventoryMovements` (docs/services.md) writes
for one allocation line: `quantityChange` is the positive allocated magnitude
and `newQty = qtyPrevious - qtyAllocated`. -/
def saleLogEntry (db : DB) (saleId companyId : Nat) (userId : Option Nat)
    (line : AllocationLine) : InventoryLog :=
  { id := db.nextId
    stockItemId := line.stockItemId
    type := .SALE
    quantityChange := line.qtyAllocated
    previousQty := line.qtyPrevious
    newQty := line.qtyPrevious - line.qtyAllocated
    isManual := false
    isReverted := false
    sourceId := some saleId
    sourceType := some "SALE"
    userId := userId
    revertedById := none
    note := some "Sale"
    companyId := companyId
    createdAt := db.now }

/-- One iteration of `processInventoryMovements` (docs/services.md): insert
the SALE audit entry and `stockItem.update({ data: { quantity:
{ decrement: qtyAllocated } } })`. -/
def applyLine (db : DB) (saleId companyId : Nat) (userId : Option Nat)
    (line : AllocationLine) : DB :=
  { db with
      logs := db.logs ++ [saleLogEntry db saleId companyId userId line]
      stockItems := db.stockItems.map fun s =>
        if s.id == line.stockItemId then
          { s with quantity := s.quantity - line.qtyAllocated }
        else s
      nextId := db.nextId + 1
      now := db.now + 1 }

/-- `processInventoryMovements` (docs/services.md): the nested loop over
allocation results and their lines. -/
def processInventoryMovements (db : DB) (allocs : List AllocationResult)
    (saleId companyId : Nat) (userId : Option Nat) : DB :=
  allocs.foldl
    (fun d a => a.lines.foldl (fun d2 line => applyLine d2 saleId companyId userId line) d)
    db

/-! ## Operation traces

The caller-facing operations named by the invariant claims, as one step
relation: a thrown exception aborts the transaction, leaving the state as it
was. -/

/-- One caller-facing request: a manual adjustment, a reversal, or a sale
creation (the shipped `SaleService.create`). -/
inductive Op where
  | manual (dto : CreateInventoryLogDto) (companyId : Nat) (userId : Option Nat)
  | revertLog (logId companyId : Nat) (revertedById : Option Nat)
  | sale (dto : CreateSaleDto) (companyId userId : Nat)

/-- Execute one operation; a service error leaves the database unchanged
(the transaction never started or rolled back). -/
def step (db : DB) (op : Op) : DB :=
  match op with
  | .manual dto cid uid =>
    match createManual db dto cid uid with
    | .ok (db2, _) => db2
    | .error _ => db
  | .revertLog lid cid rid =>
    match revert db lid cid rid with
    | .ok (db2, _) => db2
    | .error _ => db
  | .sale dto cid uid => (saleServiceCreate db dto cid uid).1

/-- Execute a sequence of operations. -/
def run (db : DB) (ops : List Op) : DB :=
  ops.foldl step db

/-- Invariant 1 of the spec: no stock lot ever has a negative quantity. -/
def nonnegLots (db : DB) : Prop :=
  ∀ s ∈ db.stockItems, 0 ≤ s.quantity

instance (db : DB) : Decidable (nonnegLots db) := by
  unfold nonnegLots; infer_instance

/-- Whether an `Except` result is a success. -/
def isOkE {α : Type} : Except ApiError α → Bool
  | .ok _ => true
  | .error _ => false

instance {ε α : Type} [DecidableEq ε] [DecidableEq α] :
    DecidableEq (Except ε α) := fun a b =>
  match a, b with
  | .ok x, .ok y =>
    if h : x = y then isTrue (congrArg Except.ok h)
    else isFalse fun he => h (Except.ok.inj he)
  | .error x, .error y =>
    if h : x = y then isTrue (congrArg Except.error h)
    else isFalse fun he => h (Except.error.inj he)
  | .ok _, .error _ => isFalse fun he => Except.noConfusion he
  | .error _, .ok _ => isFalse fun he => Except.noConfusion he

/-- Sum of the quantities allocated by a list of allocation lines. -/
def sumAlloc : List AllocationLine → Int
  | [] => 0
  | l :: ls => l.qtyAllocated + sumAlloc ls

/-! ## Concrete fixtures -/

/-- A company-1 product. -/
def prodFix : Product := { id := 100, companyId := 1 }

/-- A variant of `prodFix`. -/
def varFix : ProductVariant := { id := 5, productId := 100 }

/-- Lot with the earlier expiration date (C9 example: 2024-01-01, qty 5). -/
def lotA : StockItem :=
  { id := 1, productVariantId := 5, quantity := 5, unitPrice := 250,
    entryDate := 10, expirationDate := some 20240101, isActive := true, createdAt := 10 }

/-- Lot with the later expiration date (C9 example: 2024-02-01, qty 10). -/
def lotB : StockItem :=
  { id := 2, productVariantId := 5, quantity := 10, unitPrice := 300,
    entryDate := 11, expirationDate := some 20240201, isActive := true, createdAt := 11 }

/-- Baseline state: company 1, variant 5, lots `lotA` and `lotB`. -/
def db0 : DB :=
  { products := [prodFix], variants := [varFix], stockItems := [lotA, lotB],
    logs := [], sales := [], saleItems := [], nextId := 50, now := 20 }

/-- A manual adjustment of -2 on lot 1. -/
def dtoM2 : CreateInventoryLogDto :=
  { stockItemId := 1, type := .ADJUSTMENT, quantityChange := -2 }

/-- A manual adjustment of -7 on lot 1 (more than its quantity 5). -/
def dtoM7 : CreateInventoryLogDto :=
  { stockItemId := 1, type := .LOSS, quantityChange := -7 }

/-- Result of applying `dtoM2` to `db0` (used by witnesses). -/
def manualPair : DB × InventoryLog :=
  ((createManual db0 dtoM2 1 (some 9)).toOption).getD (default, default)

/-- Operations exercised by the C1 witness: a sale, an adjustment, a revert. -/
def opsFix : List Op :=
  [ .sale { total := 10, items := [⟨5, none, 1, 10, 0, 10, none⟩] } 1 3,
    .manual dtoM2 1 (some 9),
    .revertLog 50 1 (some 9),
    .manual { stockItemId := 2, type := .LOSS, quantityChange := -10 } 1 none,
    .manual { stockItemId := 2, type := .LOSS, quantityChange := -1 } 1 none ]

/-- State whose lot 1 carries quantity 100 (C2 counterexample). -/
def dbC2 : DB :=
  { db0 with stockItems :=
      [{ lotA with quantity := 100 }] }

/-- The sale request of the C2 counterexample: 30 units of variant 5. -/
def itemsC2 : List SaleItemInput := [⟨5, none, 30, 100, 0, 3000, none⟩]

/-- Allocation the documented allocator computes for `itemsC2` on `dbC2`. -/
def allocC2 : AllocationResult :=
  { productVariantId := 5, lines := [⟨1, 30, 100, 250⟩] }

/-- State after the documented `processInventoryMovements` writes the SALE
entry of the C2 counterexample. -/
def dbC2After : DB := processInventoryMovements dbC2 [allocC2] 99 1 (some 9)

/-- The SALE entry written in `dbC2After`. -/
def entryC2 : InventoryLog := dbC2After.logs.getD 0 default

/-- State for the C3 counterexample: one lot at quantity 10, no logs. -/
def dbC3 : DB := { db0 with stockItems := [{ lotA with quantity := 10 }] }

/-- The stock-item PATCH body of the C3 counterexample. -/
def updC3 : UpdateStockItemDto := { quantity := some 3 }

/-- Result of `StockItemService.update` on `dbC3`. -/
def pairC3 : DB × StockItem :=
  ((stockItemUpdate dbC3 1 updC3 1).toOption).getD (default, default)

/-- A SALE-convention audit entry: 30 units sold, 100 → 70
(`quantityChange` stores the positive magnitude removed). -/
def saleEntryC4 : InventoryLog :=
  { id := 7, stockItemId := 1, type := .SALE, quantityChange := 30,
    previousQty := 100, newQty := 70, isManual := false, isReverted := false,
    sourceId := some 99, sourceType := some "SALE", userId := some 3,
    revertedById := none, note := none, companyId := 1, createdAt := 15 }

/-- State for the C4 counterexample: lot 1 at 70 after the sale recorded by
`saleEntryC4`. -/
def dbC4 : DB :=
  { db0 with stockItems := [{ lotA with quantity := 70 }], logs := [saleEntryC4] }

/-- Result of reverting `saleEntryC4` on `dbC4`. -/
def pairC4 : DB × InventoryLog :=
  ((revert dbC4 7 1 (some 9)).toOption).getD (default, default)

/-- A manual-convention audit entry: adjustment of -2, 5 → 3. -/
def manualEntryC4 : InventoryLog :=
  { id := 8, stockItemId := 1, type := .ADJUSTMENT, quantityChange := -2,
    previousQty := 5, newQty := 3, isManual := true, isReverted := false,
    sourceId := none, sourceType := none, userId := some 9,
    revertedById := none, note := none, companyId := 1, createdAt := 16 }

/-- State whose lot 1 is at 3 after the adjustment recorded by
`manualEntryC4` (C4-amended / C10 witnesses). -/
def dbC4m : DB :=
  { db0 with stockItems := [{ lotA with quantity := 3 }], logs := [manualEntryC4] }

/-- Result of reverting `manualEntryC4` on `dbC4m`. -/
def pairC4m : DB × InventoryLog :=
  ((revert dbC4m 8 1 (some 9)).toOption).getD (default, default)

/-- State with an already-reverted entry (C5 witness). -/
def dbC5 : DB :=
  { dbC4m with logs := [{ manualEntryC4 with isReverted := true, revertedById := some 9 }] }

/-- State for C7: only variant 5 exists for company 1. -/
def dbC7 : DB := db0

/-- Sale request referencing the unknown variants 42 and 43 (C7). -/
def dtoC7 : CreateSaleDto :=
  { total := 30,
    items := [⟨42, none, 1, 10, 0, 10, none⟩,
              ⟨5, none, 1, 10, 0, 10, none⟩,
              ⟨43, none, 1, 10, 0, 10, none⟩] }

/-- State for the C8 scenario: variant 7 served by one lot of quantity 100,
unit price 2.50 (stored as 250 cents), expiration 2024-06-01. -/
def dbC8 : DB :=
  { products := [prodFix], variants := [{ id := 7, productId := 100 }],
    stockItems := [{ id := 1, productVariantId := 7, quantity := 100,
                     unitPrice := 250, entryDate := 5,
                     expirationDate := some 20240601, isActive := true, createdAt := 5 }],
    logs := [], sales := [], saleItems := [], nextId := 60, now := 30 }

/-- The C8 sale request: 30 units of variant 7. -/
def dtoC8 : CreateSaleDto := { total := 3000, items := [⟨7, none, 30, 100, 0, 3000, none⟩] }

/-- The allocation the documented allocator computes for the C8 scenario. -/
def allocC8 : AllocationResult := { productVariantId := 7, lines := [⟨1, 30, 100, 250⟩] }

/-- The allocation lines of the C9 example (5 from lot 1, then 3 from lot 2). -/
def linesC9 : List AllocationLine := [⟨1, 5, 5, 250⟩, ⟨2, 3, 10, 300⟩]

/-! ## Helper lemmas -/

/-- Elements of an `updateStockItemQty` result: a row with the targeted id got
the new quantity, every other row is an original row. -/
theorem updateStockItemQty_mem {items : List StockItem} {id : Nat} {q : Int}
    {s : StockItem} (hs : s ∈ updateStockItemQty items id q) :
    (s.id = id → s.quantity = q) ∧ (s.id ≠ id → s ∈ items) := by
  unfold updateStockItemQty at hs
  rcases List.mem_map.mp hs with ⟨t, ht, hts⟩
  split at hts
  · subst hts
    rename_i hid
    constructor
    · intro _; rfl
    · intro hne
      exact absurd (by simpa using hid) hne
  · subst hts
    exact ⟨fun hid => absurd hid (by rename_i h; simpa using h), fun _ => ht⟩

/-- Every row of an `updateStockItemQty` result differs from an original row
at most in its quantity. -/
theorem updateStockItemQty_frame {items : List StockItem} {id : Nat} {q : Int}
    {s : StockItem} (hs : s ∈ updateStockItemQty items id q) :
    ∃ t ∈ items, s = { t with quantity := s.quantity } := by
  unfold updateStockItemQty at hs
  rcases List.mem_map.mp hs with ⟨t, ht, hts⟩
  refine ⟨t, ht, ?_⟩
  split at hts <;> subst hts <;> rfl

/-- Inversion of a successful `createManual`. -/
theorem createManual_ok {db : DB} {dto : CreateInventoryLogDto} {cid : Nat}
    {uid : Option Nat} {db2 : DB} {e : InventoryLog}
    (h : createManual db dto cid uid = .ok (db2, e)) :
    ∃ lot, stockItemFindFirst db dto.stockItemId cid = some lot
      ∧ ¬ lot.quantity + dto.quantityChange < 0
      ∧ e = { id := db.nextId, stockItemId := lot.id, type := dto.type,
              quantityChange := dto.quantityChange, previousQty := lot.quantity,
              newQty := lot.quantity + dto.quantityChange,
              isManual := dto.isManual.getD true, isReverted := false,
              sourceId := dto.sourceId, sourceType := dto.sourceType,
              userId := uid, revertedById := none, note := dto.note,
              companyId := cid, createdAt := db.now }
      ∧ db2 = { db with
                  stockItems := updateStockItemQty db.stockItems lot.id
                    (lot.quantity + dto.quantityChange)
                  logs := db.logs ++ [e]
                  nextId := db.nextId + 1
                  now := db.now + 1 } := by
  unfold createManual at h
  cases hfind : stockItemFindFirst db dto.stockItemId cid with
  | none => rw [hfind] at h; exact absurd h (by simp)
  | some lot =>
    rw [hfind] at h
    simp only [] at h
    split at h
    · exact absurd h (by simp)
    · rename_i hneg
      refine ⟨lot, rfl, hneg, ?_, ?_⟩
      · injection h with h1
        injection h1 with _ h2
        exact h2.symm
      · injection h with h1
        injection h1 with h2 h3
        rw [← h2, ← h3]

/-- Inversion of a successful `revert`. -/
theorem revert_ok {db : DB} {lid cid : Nat} {rid : Option Nat} {db2 : DB}
    {e : InventoryLog} (h : revert db lid cid rid = .ok (db2, e)) :
    ∃ log lot, logFindFirst db lid cid = some log
      ∧ log.isReverted = false
      ∧ stockItemFindFirst db log.stockItemId cid = some lot
      ∧ ¬ lot.quantity - log.quantityChange < 0
      ∧ e = { log with
                isReverted := true
                revertedById := if rid.isSome then rid else log.revertedById }
      ∧ db2 = { db with
                  stockItems := updateStockItemQty db.stockItems lot.id
                    (lot.quantity - log.quantityChange)
                  logs := db.logs.map fun l => if l.id == log.id then e else l
                  now := db.now + 1 } := by
  unfold revert at h
  cases hfind : logFindFirst db lid cid with
  | none => rw [hfind] at h; exact absurd h (by simp)
  | some log =>
    rw [hfind] at h
    simp only [] at h
    split at h
    · exact absurd h (by simp)
    · rename_i hrev
      cases hlot : stockItemFindFirst db log.stockItemId cid with
      | none => rw [hlot] at h; exact absurd h (by simp)
      | some lot =>
        rw [hlot] at h
        simp only [] at h
        split at h
        · exact absurd h (by simp)
        · rename_i hneg
          refine ⟨log, lot, rfl, by simpa using hrev, hlot, hneg, ?_, ?_⟩
          · injection h with h1
            injection h1 with _ h2
            exact h2.symm
          · injection h with h1
            injection h1 with h2 h3
            rw [← h2, ← h3]

/-- `SaleService.create` touches neither stock items nor the audit log. -/
theorem saleServiceCreate_frame (db : DB) (dto : CreateSaleDto) (cid uid : Nat) :
    (saleServiceCreate db dto cid uid).1.stockItems = db.stockItems
    ∧ (saleServiceCreate db dto cid uid).1.logs = db.logs :=
  ⟨rfl, rfl⟩

/-- Every operation preserves non-negativity of all lot quantities. -/
theorem nonnegLots_step {db : DB} (h : nonnegLots db) (op : Op) :
    nonnegLots (step db op) := by
  cases op with
  | manual dto cid uid =>
    simp only [step]
    cases hc : createManual db dto cid uid with
    | error _ => exact h
    | ok p =>
      obtain ⟨db2, e⟩ := p
      show nonnegLots db2
      obtain ⟨lot, -, hneg, -, hdb2⟩ := createManual_ok hc
      intro s hs
      rw [hdb2] at hs
      rcases updateStockItemQty_mem hs with ⟨hsame, hdiff⟩
      by_cases hid : s.id = lot.id
      · have := hsame hid; omega
      · exact h s (hdiff hid)
  | revertLog lid cid rid =>
    simp only [step]
    cases hc : revert db lid cid rid with
    | error _ => exact h
    | ok p =>
      obtain ⟨db2, e⟩ := p
      show nonnegLots db2
      obtain ⟨log, lot, -, -, -, hneg, -, hdb2⟩ := revert_ok hc
      intro s hs
      rw [hdb2] at hs
      rcases updateStockItemQty_mem hs with ⟨hsame, hdiff⟩
      by_cases hid : s.id = lot.id
      · have := hsame hid; omega
      · exact h s (hdiff hid)
  | sale dto cid uid =>
    intro s hs
    exact h s hs

/-- Any sequence of operations preserves non-negativity. -/
theorem nonnegLots_run {db : DB} (h : nonnegLots db) (ops : List Op) :
    nonnegLots (run db ops) := by
  induction ops generalizing db with
  | nil => exact h
  | cons op rest ih => exact ih (nonnegLots_step h op)

/-! ## Claims -/

/-- Claim C1: starting from a state whose stock-lot quantities are all
non-negative, after any sequence of sale-creation, manual-adjustment and
reversal operations — and after every prefix of it, i.e. in every intermediate
state — every `StockLot.quantity` is still non-negative. -/
theorem c1_quantity_never_negative (db : DB) (h : nonnegLots db) (ops : List Op) :
    nonnegLots (run db ops) ∧ ∀ k, nonnegLots (run db (ops.take k)) :=
  ⟨nonnegLots_run h ops, fun _ => nonnegLots_run h _⟩

/-- Witness for C1 at the concrete state `db0` and operation list `opsFix`. -/
theorem c1_quantity_never_negative_witness :
    nonnegLots (run db0 opsFix) :=
  (c1_quantity_never_negative db0 (by decide) opsFix).1

/-- Claim C5: reverting an entry whose `isReverted` flag is already set fails
with the already-reverted BadRequest, leaves the whole state unchanged, and —
assuming log ids are unique, as database primary keys are — no operation ever
touches a reverted entry again: the reverted state is terminal. -/
theorem c5_already_reverted (db : DB) (logId cid : Nat) (rid : Option Nat)
    (log : InventoryLog) (hfind : logFindFirst db logId cid = some log)
    (hrev : log.isReverted = true)
    (hnodup : (db.logs.map InventoryLog.id).Nodup) :
    revert db logId cid rid = .error (.badRequest "Log already reverted")
    ∧ step db (.revertLog logId cid rid) = db
    ∧ ∀ (op : Op) (e : InventoryLog), e ∈ db.logs → e.isReverted = true →
        e ∈ (step db op).logs := by
  have herr : revert db logId cid rid = .error (.badRequest "Log already reverted") := by
    unfold revert
    rw [hfind]
    simp [hrev]
  refine ⟨herr, ?_, ?_⟩
  · simp only [step, herr]
  · intro op e he hetrue
    cases op with
    | manual dto c u =>
      simp only [step]
      cases hc : createManual db dto c u with
      | error _ => exact he
      | ok p =>
        obtain ⟨db2, e2⟩ := p
        obtain ⟨lot, -, -, -, hdb2⟩ := createManual_ok hc
        show e ∈ db2.logs
        rw [hdb2]
        exact List.mem_append_left _ he
    | revertLog l2 c2 r2 =>
      simp only [step]
      cases hc : revert db l2 c2 r2 with
      | error _ => exact he
      | ok p =>
        obtain ⟨db2, e2⟩ := p
        obtain ⟨log2, lot2, hfind2, hrev2, -, -, -, hdb2⟩ := revert_ok hc
        show e ∈ db2.logs
        rw [hdb2]
        have hlog2mem : log2 ∈ db.logs :=
          List.mem_of_find?_eq_some (by simpa [logFindFirst] using hfind2)
        have hne : e.id ≠ log2.id := by
          intro hid
          have heq : e = log2 :=
            List.inj_on_of_nodup_map hnodup he hlog2mem hid
          rw [heq, hrev2] at hetrue
          exact Bool.false_ne_true hetrue
        refine List.mem_map.mpr ⟨e, he, ?_⟩
        simp [hne]
    | sale dto c u =>
      exact he

/-- Witness for C5: reverting the already-reverted entry of `dbC5` fails and
changes nothing. -/
theorem c5_already_reverted_witness :
    revert dbC5 8 1 (some 10) = .error (.badRequest "Log already reverted")
    ∧ step dbC5 (.revertLog 8 1 (some 10)) = dbC5 :=
  ⟨(c5_already_reverted dbC5 8 1 (some 10)
      { manualEntryC4 with isReverted := true, revertedById := some 9 }
      (by decide) (by decide) (by decide)).1,
   (c5_already_reverted dbC5 8 1 (some 10)
      { manualEntryC4 with isReverted := true, revertedById := some 9 }
      (by decide) (by decide) (by decide)).2.1⟩

/-- Claim C6: on a tenant-owned lot, `createManual` fails with the
negative-result BadRequest and mutates nothing when `lot.quantity +
quantityChange < 0`; otherwise it succeeds, the lot's quantity becomes exactly
`lot.quantity + quantityChange`, and exactly one log entry with matching
`previousQty`/`newQty` is appended in the same transaction. -/
theorem c6_createManual_branches (db : DB) (dto : CreateInventoryLogDto)
    (cid : Nat) (uid : Option Nat) (lot : StockItem)
    (hfind : stockItemFindFirst db dto.stockItemId cid = some lot) :
    (lot.quantity + dto.quantityChange < 0 →
      createManual db dto cid uid
          = .error (.badRequest "Resulting quantity cannot be negative")
      ∧ step db (.manual dto cid uid) = db)
    ∧ (0 ≤ lot.quantity + dto.quantityChange →
        isOkE (createManual db dto cid uid) = true)
    ∧ (∀ db2 e, createManual db dto cid uid = .ok (db2, e) →
        db2.logs = db.logs ++ [e]
        ∧ e.stockItemId = lot.id
        ∧ e.previousQty = lot.quantity
        ∧ e.newQty = lot.quantity + dto.quantityChange
        ∧ e.previousQty + e.quantityChange = e.newQty
        ∧ (∀ s ∈ db2.stockItems,
            (s.id = lot.id → s.quantity = lot.quantity + dto.quantityChange)
            ∧ (s.id ≠ lot.id → s ∈ db.stockItems))) := by
  refine ⟨?_, ?_, ?_⟩
  · intro hneg
    have herr : createManual db dto cid uid
        = .error (.badRequest "Resulting quantity cannot be negative") := by
      unfold createManual
      rw [hfind]
      simp [hneg]
    exact ⟨herr, by simp only [step, herr]⟩
  · intro hpos
    unfold createManual
    rw [hfind]
    simp only []
    rw [if_neg (by omega)]
    rfl
  · intro db2 e hok
    obtain ⟨lot', hfind', hneg', he, hdb2⟩ := createManual_ok hok
    rw [hfind] at hfind'
    injection hfind' with hlot'
    subst hlot'
    refine ⟨by rw [hdb2], by rw [he], by rw [he], by rw [he], by rw [he], ?_⟩
    intro s hs
    rw [hdb2] at hs
    rcases updateStockItemQty_mem hs with ⟨hsame, hdiff⟩
    exact ⟨hsame, hdiff⟩

/-- Witness for C6: on `db0`, a -7 adjustment of lot 1 (quantity 5) fails and
mutates nothing, while a -2 adjustment succeeds. -/
theorem c6_createManual_branches_witness :
    (createManual db0 dtoM7 1 (some 9)
        = .error (.badRequest "Resulting quantity cannot be negative")
      ∧ step db0 (.manual dtoM7 1 (some 9)) = db0)
    ∧ isOkE (createManual db0 dtoM2 1 (some 9)) = true :=
  ⟨(c6_createManual_branches db0 dtoM7 1 (some 9) lotA (by decide)).1 (by decide),
   (c6_createManual_branches db0 dtoM2 1 (some 9) lotA (by decide)).2.1 (by decide)⟩

/-- Claim C10: a successful revert flips `isReverted` to true and sets
`revertedById` to the acting user (or leaves it null when none is supplied,
given the entry's `revertedById` was null as `createManual` writes it); every
other field of the entry is unchanged, every log row is an original row or the
reverted entry, sales and sale items are untouched, and stock rows change in
the quantity field only. -/
theorem c10_revert_frame (db : DB) (lid cid : Nat) (rid : Option Nat)
    (entry : InventoryLog) (db2 : DB) (e2 : InventoryLog)
    (hfind : logFindFirst db lid cid = some entry)
    (hnull : entry.revertedById = none)
    (h : revert db lid cid rid = .ok (db2, e2)) :
    e2.isReverted = true
    ∧ e2.revertedById = rid
    ∧ e2.quantityChange = entry.quantityChange
    ∧ e2.previousQty = entry.previousQty
    ∧ e2.newQty = entry.newQty
    ∧ e2.type = entry.type
    ∧ e2.stockItemId = entry.stockItemId
    ∧ e2.sourceId = entry.sourceId
    ∧ e2.sourceType = entry.sourceType
    ∧ e2.isManual = entry.isManual
    ∧ e2.companyId = entry.companyId
    ∧ e2.createdAt = entry.createdAt
    ∧ (∀ l ∈ db2.logs, l ∈ db.logs ∨ l = e2)
    ∧ db2.sales = db.sales
    ∧ db2.saleItems = db.saleItems
    ∧ (∀ s ∈ db2.stockItems, ∃ t ∈ db.stockItems,
        s = { t with quantity := s.quantity }) := by
  obtain ⟨log, lot, hfind2, hrev2, hlot2, hneg2, he2, hdb2⟩ := revert_ok h
  rw [hfind] at hfind2
  injection hfind2 with hlog
  subst hlog
  refine ⟨by rw [he2], ?_, by rw [he2], by rw [he2], by rw [he2], by rw [he2],
    by rw [he2], by rw [he2], by rw [he2], by rw [he2], by rw [he2], by rw [he2],
    ?_, by rw [hdb2], by rw [hdb2], ?_⟩
  · rw [he2]
    cases rid with
    | none => simpa using hnull
    | some u => simp
  · intro l hl
    rw [hdb2] at hl
    rcases List.mem_map.mp hl with ⟨x, hx, hxl⟩
    split at hxl
    · right; exact hxl.symm
    · left; rw [← hxl]; exact hx
  · intro s hs
    rw [hdb2] at hs
    exact updateStockItemQty_frame hs

/-- Witness for C10: reverting the manual entry of `dbC4m` as user 9. -/
theorem c10_revert_frame_witness :
    pairC4m.2.isReverted = true
    ∧ pairC4m.2.revertedById = some 9
    ∧ pairC4m.2.quantityChange = manualEntryC4.quantityChange
    ∧ pairC4m.2.previousQty = manualEntryC4.previousQty :=
  ⟨(c10_revert_frame dbC4m 8 1 (some 9) manualEntryC4 pairC4m.1 pairC4m.2
      (by decide) (by decide) (by decide)).1,
   (c10_revert_frame dbC4m 8 1 (some 9) manualEntryC4 pairC4m.1 pairC4m.2
      (by decide) (by decide) (by decide)).2.1,
   (c10_revert_frame dbC4m 8 1 (some 9) manualEntryC4 pairC4m.1 pairC4m.2
      (by decide) (by decide) (by decide)).2.2.1,
   (c10_revert_frame dbC4m 8 1 (some 9) manualEntryC4 pairC4m.1 pairC4m.2
      (by decide) (by decide) (by decide)).2.2.2.1⟩

/-- Claim C2 is false on the code: the SALE audit entry that the documented
`processInventoryMovements` writes for the 30-unit sale out of a lot of 100
has `previousQty + quantityChange = 130 ≠ 70 = newQty`, because
`quantityChange` stores the positive removed magnitude. -/
theorem c2_counterexample :
    allocateStock dbC2 itemsC2 = .ok [allocC2]
    ∧ dbC2After.logs = [entryC2]
    ∧ entryC2.type = LogType.SALE
    ∧ entryC2.previousQty = 100
    ∧ entryC2.quantityChange = 30
    ∧ entryC2.newQty = 70
    ∧ entryC2.previousQty + entryC2.quantityChange ≠ entryC2.newQty := by
  decide

/-- Claim C2 (amended): entries written by `createManual` satisfy
`previousQty + quantityChange = newQty` and their `newQty` equals the lot
quantity produced by the same transaction; SALE entries written by the
documented sale processing instead satisfy
`previousQty - quantityChange = newQty` (the positive-magnitude convention),
and their `newQty` equals the decremented lot quantity whenever the lot still
holds `qtyPrevious` when the movement is applied. -/
theorem c2_amended_log_arithmetic :
    (∀ (db : DB) (dto : CreateInventoryLogDto) (cid : Nat) (uid : Option Nat)
        (db2 : DB) (e : InventoryLog),
      createManual db dto cid uid = .ok (db2, e) →
        e.previousQty + e.quantityChange = e.newQty
        ∧ db2.logs = db.logs ++ [e]
        ∧ ∀ s ∈ db2.stockItems, s.id = e.stockItemId → s.quantity = e.newQty)
    ∧ (∀ (db : DB) (sid cid : Nat) (uid : Option Nat) (line : AllocationLine),
        (saleLogEntry db sid cid uid line).type = LogType.SALE
        ∧ (saleLogEntry db sid cid uid line).previousQty
            - (saleLogEntry db sid cid uid line).quantityChange
            = (saleLogEntry db sid cid uid line).newQty
        ∧ ((∀ lot ∈ db.stockItems, lot.id = line.stockItemId →
              lot.quantity = line.qtyPrevious) →
            ∀ s ∈ (applyLine db sid cid uid line).stockItems,
              s.id = line.stockItemId →
                s.quantity = (saleLogEntry db sid cid uid line).newQty)) := by
  constructor
  · intro db dto cid uid db2 e hok
    obtain ⟨lot, hfind, hneg, he, hdb2⟩ := createManual_ok hok
    refine ⟨by rw [he], by rw [hdb2], ?_⟩
    intro s hs hid
    rw [hdb2] at hs
    rcases updateStockItemQty_mem hs with ⟨hsame, -⟩
    rw [he] at hid ⊢
    exact hsame hid
  · intro db sid cid uid line
    refine ⟨rfl, rfl, ?_⟩
    intro hall s hs hid
    rcases List.mem_map.mp hs with ⟨t, ht, hts⟩
    split at hts
    · rename_i hcond
      have htid : t.id = line.stockItemId := by simpa using hcond
      have hq := hall t ht htid
      rw [← hts]
      show t.quantity - line.qtyAllocated = line.qtyPrevious - line.qtyAllocated
      rw [hq]
    · rename_i hcond
      rw [← hts] at hid
      exact absurd hid (by simpa using hcond)

/-- Witness for C2 (amended) at the concrete adjustment `dtoM2` on `db0` and
a concrete SALE line. -/
theorem c2_amended_log_arithmetic_witness :
    manualPair.2.previousQty + manualPair.2.quantityChange = manualPair.2.newQty
    ∧ (saleLogEntry dbC2 99 1 (some 9) ⟨1, 30, 100, 250⟩).previousQty
        - (saleLogEntry dbC2 99 1 (some 9) ⟨1, 30, 100, 250⟩).quantityChange
        = (saleLogEntry dbC2 99 1 (some 9) ⟨1, 30, 100, 250⟩).newQty :=
  ⟨(c2_amended_log_arithmetic.1 db0 dtoM2 1 (some 9) manualPair.1 manualPair.2
      (by decide)).1,
   (c2_amended_log_arithmetic.2 dbC2 99 1 (some 9) ⟨1, 30, 100, 250⟩).2.1⟩

/-- Claim C3 is false on the code: `StockItemService.update` is a caller-facing
path (PATCH /stock-item/:id) that changes a lot's quantity from 10 to 3 while
writing no `InventoryLogEntry` at all. -/
theorem c3_counterexample :
    stockItemUpdate dbC3 1 updC3 1 = .ok (pairC3.1, pairC3.2)
    ∧ dbC3.stockItems.map StockItem.quantity = [10]
    ∧ pairC3.1.stockItems.map StockItem.quantity = [3]
    ∧ dbC3.logs = []
    ∧ pairC3.1.logs = [] := by
  decide

/-- Claim C3 (amended): quantity changes made by `createManual` carry exactly
one matching log entry, and `revert` appends no entry at all (it restores the
quantity while only flipping the original entry's flags); but the audit
coverage is not system-wide, since `StockItemService.update` mutates
quantities with no log entry (see the counterexample). -/
theorem c3_amended_audit_scope :
    (∀ (db : DB) (dto : CreateInventoryLogDto) (cid : Nat) (uid : Option Nat)
        (db2 : DB) (e : InventoryLog),
      createManual db dto cid uid = .ok (db2, e) →
        db2.logs = db.logs ++ [e]
        ∧ ∃ lot, stockItemFindFirst db dto.stockItemId cid = some lot
            ∧ e.previousQty = lot.quantity
            ∧ e.newQty = lot.quantity + dto.quantityChange
            ∧ ∀ s ∈ db2.stockItems, s.id = e.stockItemId → s.quantity = e.newQty)
    ∧ (∀ (db : DB) (lid cid : Nat) (rid : Option Nat) (db2 : DB) (e : InventoryLog),
      revert db lid cid rid = .ok (db2, e) → db2.logs.length = db.logs.length) := by
  constructor
  · intro db dto cid uid db2 e hok
    obtain ⟨lot, hfind, hneg, he, hdb2⟩ := createManual_ok hok
    refine ⟨by rw [hdb2], lot, hfind, by rw [he], by rw [he], ?_⟩
    intro s hs hid
    rw [hdb2] at hs
    rcases updateStockItemQty_mem hs with ⟨hsame, -⟩
    rw [he] at hid ⊢
    exact hsame hid
  · intro db lid cid rid db2 e hok
    obtain ⟨log, lot, -, -, -, -, -, hdb2⟩ := revert_ok hok
    rw [hdb2]
    exact List.length_map _ _

/-- Witness for C3 (amended): the concrete adjustment on `db0` appends its one
entry; the concrete revert on `dbC4m` appends none. -/
theorem c3_amended_audit_scope_witness :
    manualPair.1.logs = db0.logs ++ [manualPair.2]
    ∧ pairC4m.1.logs.length = dbC4m.logs.length :=
  ⟨(c3_amended_audit_scope.1 db0 dtoM2 1 (some 9) manualPair.1 manualPair.2
      (by decide)).1,
   c3_amended_audit_scope.2 dbC4m 8 1 (some 9) pairC4m.1 pairC4m.2 (by decide)⟩

/-- Claim C4 is false on the code: reverting the SALE-convention entry
`saleEntryC4` (30 units sold, 100 → 70) on a lot now at 70 succeeds and sets
the lot to 70 - 30 = 40, not back to the pre-event quantity 100 — because
`revert` subtracts `quantityChange`, which for SALE entries is the positive
removed magnitude, not the signed delta. -/
theorem c4_counterexample :
    revert dbC4 7 1 (some 9) = .ok (pairC4.1, pairC4.2)
    ∧ saleEntryC4.previousQty = 100
    ∧ dbC4.stockItems.map StockItem.quantity = [70]
    ∧ pairC4.1.stockItems.map StockItem.quantity = [40]
    ∧ pairC4.1.stockItems.map StockItem.quantity ≠ [(100 : Int)] := by
  decide

/-- Claim C4 (amended): for a non-reverted entry whose `quantityChange` is the
signed delta `newQty - previousQty` — which holds for every entry
`createManual` writes — and whose lot still holds the entry's `newQty`,
`revert` succeeds, sets the lot quantity to `lot.quantity - quantityChange`,
and that value is exactly the pre-event quantity `previousQty`; SALE-convention
entries are excluded (see the counterexample). -/
theorem c4_amended_revert_restores (db : DB) (lid cid : Nat) (rid : Option Nat)
    (entry : InventoryLog) (lot : StockItem)
    (hfind : logFindFirst db lid cid = some entry)
    (hnotrev : entry.isReverted = false)
    (hlot : stockItemFindFirst db entry.stockItemId cid = some lot)
    (hconv : entry.previousQty + entry.quantityChange = entry.newQty)
    (hcur : lot.quantity = entry.newQty)
    (hprev : 0 ≤ entry.previousQty) :
    isOkE (revert db lid cid rid) = true
    ∧ ∀ db2 e2, revert db lid cid rid = .ok (db2, e2) →
        ∀ s ∈ db2.stockItems,
          (s.id = lot.id → s.quantity = entry.previousQty)
          ∧ (s.id ≠ lot.id → s ∈ db.stockItems) := by
  constructor
  · unfold revert
    rw [hfind]
    simp only [hnotrev]
    rw [hlot]
    simp only [Bool.false_eq_true, if_false]
    rw [if_neg (by omega)]
    rfl
  · intro db2 e2 hok
    obtain ⟨log, lot2, hfind2, hrev2, hlot2, hneg2, he2, hdb2⟩ := revert_ok hok
    rw [hfind] at hfind2
    injection hfind2 with hlog
    subst hlog
    rw [hlot] at hlot2
    injection hlot2 with hlot2eq
    subst hlot2eq
    intro s hs
    rw [hdb2] at hs
    rcases updateStockItemQty_mem hs with ⟨hsame, hdiff⟩
    refine ⟨fun hid => ?_, hdiff⟩
    have := hsame hid
    omega

/-- Witness for C4 (amended): reverting the manual -2 adjustment on `dbC4m`
(lot at 3, entry 5 → 3) succeeds. -/
theorem c4_amended_revert_restores_witness :
    isOkE (revert dbC4m 8 1 (some 9)) = true :=
  (c4_amended_revert_restores dbC4m 8 1 (some 9) manualEntryC4
    { lotA with quantity := 3 } (by decide) (by decide) (by decide) (by decide)
    (by decide) (by decide)).1

/-- Claim C7 on the code as shipped: for a request naming the unknown
variants 42 and 43, the documented validator (`validateSaleItems`,
docs/services.md) does reject with one BadRequest listing all missing ids —
but the shipped `SaleService.create` runs no validation at all: it persists
the Sale and its three SaleItems regardless, touching no stock and writing no
log entry, and never raises the documented BadRequest. -/
theorem c7_create_skips_validation :
    validateSaleItems dbC7 dtoC7.items 1
        = .error (.badRequestMissingVariants [42, 43])
    ∧ (saleServiceCreate dbC7 dtoC7 1 3).1.stockItems = dbC7.stockItems
    ∧ (saleServiceCreate dbC7 dtoC7 1 3).1.logs = dbC7.logs
    ∧ (saleServiceCreate dbC7 dtoC7 1 3).1.sales.length = dbC7.sales.length + 1
    ∧ (saleServiceCreate dbC7 dtoC7 1 3).1.saleItems.length
        = dbC7.saleItems.length + 3 := by
  decide

/-- Claim C8 on the code as shipped: for the 30-unit sale against the single
lot of 100, the shipped `SaleService.create` leaves the lot at 100 and writes
no `InventoryLogEntry`; the documented allocator would have produced the
expected allocation line {lot 1, qtyAllocated 30, qtyPrevious 100}, and the
documented `processInventoryMovements` applied to it would have set the lot to
70 and written the SALE entry with previousQty 100 and newQty 70. -/
theorem c8_sale_without_movements :
    (saleServiceCreate dbC8 dtoC8 1 3).1.stockItems.map StockItem.quantity = [100]
    ∧ (saleServiceCreate dbC8 dtoC8 1 3).1.logs = []
    ∧ allocateStock dbC8 dtoC8.items = .ok [allocC8]
    ∧ (processInventoryMovements dbC8 [allocC8] 77 1 (some 3)).stockItems.map
        StockItem.quantity = [70]
    ∧ (processInventoryMovements dbC8 [allocC8] 77 1 (some 3)).logs.map
        (fun e => (e.type, e.previousQty, e.newQty, e.stockItemId))
        = [(LogType.SALE, 100, 70, 1)] := by
  decide

/-- The remaining quantity after the greedy loop is the request minus the
total allocated. -/
theorem greedyLoop_remaining (lots : List StockItem) :
    ∀ r : Int, (greedyLoop r lots).2 = r - sumAlloc (greedyLoop r lots).1 := by
  induction lots with
  | nil => intro r; simp [greedyLoop, sumAlloc]
  | cons lot rest ih =>
    intro r
    by_cases h : r ≤ 0
    · simp [greedyLoop, h, sumAlloc]
    · have hih := ih (r - min r lot.quantity)
      simp only [greedyLoop, if_neg h]
      simp only [sumAlloc]
      omega

/-- The greedy loop never leaves a negative remainder when the request is
non-negative. -/
theorem greedyLoop_remaining_nonneg (lots : List StockItem) :
    ∀ r : Int, 0 ≤ r → 0 ≤ (greedyLoop r lots).2 := by
  induction lots with
  | nil => intro r hr; simpa [greedyLoop]
  | cons lot rest ih =>
    intro r hr
    by_cases h : r ≤ 0
    · simpa [greedyLoop, h]
    · simp only [greedyLoop, if_neg h]
      exact ih _ (by omega)

/-- The greedy loop consumes the leading lots of the ordered list, in order:
the produced lines carry the ids and prior quantities of the first
`lines.length` lots. -/
theorem greedyLoop_take (lots : List StockItem) :
    ∀ r : Int,
      (greedyLoop r lots).1.map AllocationLine.stockItemId
        = (lots.take (greedyLoop r lots).1.length).map StockItem.id
      ∧ (greedyLoop r lots).1.map AllocationLine.qtyPrevious
        = (lots.take (greedyLoop r lots).1.length).map StockItem.quantity := by
  induction lots with
  | nil => intro r; simp [greedyLoop]
  | cons lot rest ih =>
    intro r
    by_cases h : r ≤ 0
    · simp [greedyLoop, h]
    · have hih := ih (r - min r lot.quantity)
      simp only [greedyLoop, if_neg h]
      constructor
      · simpa [List.take_succ_cons] using hih.1
      · simpa [List.take_succ_cons] using hih.2

/-- Every allocation line drawn by the greedy loop comes from one of the
given lots, keeping its id, prior quantity and unit price. -/
theorem greedyLoop_mem (lots : List StockItem) :
    ∀ (r : Int) (l : AllocationLine), l ∈ (greedyLoop r lots).1 →
      ∃ lot ∈ lots, l.stockItemId = lot.id ∧ l.qtyPrevious = lot.quantity
        ∧ l.unitCost = lot.unitPrice := by
  induction lots with
  | nil => intro r l hl; simp [greedyLoop] at hl
  | cons lot rest ih =>
    intro r l hl
    by_cases h : r ≤ 0
    · simp [greedyLoop, h] at hl
    · simp only [greedyLoop, if_neg h] at hl
      rcases List.mem_cons.mp hl with heq | hmem
      · subst heq
        exact ⟨lot, List.mem_cons_self lot rest, rfl, rfl, rfl⟩
      · obtain ⟨lot2, hmem2, h1, h2, h3⟩ := ih _ l hmem
        exact ⟨lot2, List.mem_cons_of_mem lot hmem2, h1, h2, h3⟩

/-- The k-th greedy line takes exactly `min(remaining-so-far, lot quantity)`. -/
theorem greedyLoop_min (lots : List StockItem) :
    ∀ (r : Int) (k : Nat) (l : AllocationLine),
      (greedyLoop r lots).1[k]? = some l →
      l.qtyAllocated
        = min (r - sumAlloc ((greedyLoop r lots).1.take k)) l.qtyPrevious := by
  induction lots with
  | nil => intro r k l hl; simp [greedyLoop] at hl
  | cons lot rest ih =>
    intro r k l hl
    by_cases h : r ≤ 0
    · simp [greedyLoop, h] at hl
    · simp only [greedyLoop, if_neg h] at hl ⊢
      cases k with
      | zero =>
        simp only [List.getElem?_cons_zero, Option.some.injEq] at hl
        subst hl
        simp [sumAlloc]
      | succ k2 =>
        simp only [List.getElem?_cons_succ] at hl
        have hih := ih (r - min r lot.quantity) k2 l hl
        simp only [List.take_succ_cons, sumAlloc]
        omega

/-- Inversion of a successful `allocateVariant`. -/
theorem allocateVariant_ok {db : DB} {vid : Nat} {q : Int}
    {lines : List AllocationLine} (h : allocateVariant db vid q = .ok lines) :
    lines = (greedyLoop q (availableLots db vid)).1
    ∧ (greedyLoop q (availableLots db vid)).2 ≤ 0 := by
  simp only [allocateVariant] at h
  split at h
  · exact absurd h (by simp)
  · split at h
    · exact absurd h (by simp)
    · rename_i h2
      constructor
      · injection h with h1; exact h1.symm
      · omega

/-- The allocator's candidate list is the FIFO-ordered list of the variant's
lots with positive quantity. -/
theorem mem_availableLots {db : DB} {vid : Nat} {lot : StockItem}
    (h : lot ∈ availableLots db vid) :
    lot ∈ db.stockItems ∧ lot.productVariantId = vid ∧ 0 < lot.quantity := by
  unfold availableLots at h
  have hmem := (List.perm_insertionSort fifoLe _).mem_iff.mp h
  rcases List.mem_filter.mp hmem with ⟨h1, h2⟩
  simp only [Bool.and_eq_true, beq_iff_eq, decide_eq_true_eq] at h2
  exact ⟨h1, h2.1, h2.2⟩

/-- The candidate list is sorted by the FIFO-with-expiration order. -/
theorem availableLots_sorted (db : DB) (vid : Nat) :
    List.Sorted fifoLe (availableLots db vid) :=
  List.sorted_insertionSort fifoLe _

/-- Claim C9: a successful allocation for a variant (i) allocates exactly the
requested quantity, (ii) draws only on that variant's lots with quantity > 0,
(iii) consumes the candidate list — sorted by expiration ascending, missing
expirations last, ties by creation timestamp — from the front in order, and
(iv) takes `min(remaining, lot.quantity)` at each step; in particular, on lots
[2024-01-01: qty 5] and [2024-02-01: qty 10], a request for 8 allocates 5 from
the first lot and 3 from the second, in that order. -/
theorem c9_fifo_allocation :
    (∀ (db : DB) (vid : Nat) (q : Int) (lines : List AllocationLine),
      0 ≤ q →
      allocateVariant db vid q = .ok lines →
        sumAlloc lines = q
        ∧ List.Sorted fifoLe (availableLots db vid)
        ∧ lines.map AllocationLine.stockItemId
            = ((availableLots db vid).take lines.length).map StockItem.id
        ∧ lines.map AllocationLine.qtyPrevious
            = ((availableLots db vid).take lines.length).map StockItem.quantity
        ∧ (∀ l ∈ lines, ∃ lot ∈ db.stockItems,
            lot.productVariantId = vid ∧ 0 < lot.quantity
            ∧ l.stockItemId = lot.id ∧ l.qtyPrevious = lot.quantity)
        ∧ (∀ (k : Nat) (l : AllocationLine), lines[k]? = some l →
            l.qtyAllocated = min (q - sumAlloc (lines.take k)) l.qtyPrevious))
    ∧ allocateVariant db0 5 8 = .ok linesC9 := by
  constructor
  · intro db vid q lines hq hok
    obtain ⟨hlines, hrem⟩ := allocateVariant_ok hok
    subst hlines
    refine ⟨?_, availableLots_sorted db vid, (greedyLoop_take _ q).1,
      (greedyLoop_take _ q).2, ?_, ?_⟩
    · have h1 := greedyLoop_remaining (availableLots db vid) q
      have h2 := greedyLoop_remaining_nonneg (availableLots db vid) q hq
      omega
    · intro l hl
      obtain ⟨lot, hmem, h1, h2, -⟩ := greedyLoop_mem _ q l hl
      obtain ⟨hm, hv, hpos⟩ := mem_availableLots hmem
      exact ⟨lot, hm, hv, hpos, h1, h2⟩
    · intro k l hl
      exact greedyLoop_min _ q k l hl
  · decide

/-- Witness for C9 at the two-lot example state `db0`. -/
theorem c9_fifo_allocation_witness :
    sumAlloc linesC9 = 8 ∧ List.Sorted fifoLe (availableLots db0 5) :=
  ⟨(c9_fifo_allocation.1 db0 5 8 linesC9 (by decide) (by decide)).1,
   (c9_fifo_allocation.1 db0 5 8 linesC9 (by decide) (by decide)).2.1⟩

end StockFlow
